import Mathlib

/-!
Verification of the two pieces of original logic in the web-stories-wp
fragments under review:

* `FormLabel` (src/packages/story-editor/src/components/publishModal/
  mainContent/formLabel.js): a form-label renderer that decorates the label
  with a required-marker and a "Required" tooltip when the field identifier
  appears in the required-inputs list.

* `templateContent` (src/webpack.config.cjs): the manifest templater that
  turns the lists of produced JS/CSS file paths into lists of bare secondary
  chunk names, excluding the primary entry chunk.

Strings are modelled as `List Char` (a JS string is a sequence of code
units; all strings involved here are plain ASCII).  JS `indexOf` /
`lastIndexOf` return `-1` when the needle is absent, so they are modelled
as `Int`-valued functions.
-/

namespace WebStories

/-- JS `Array.prototype.indexOf` / `String.prototype.indexOf` for a single
element: index of the first occurrence, `-1` when absent. -/
def jsIndexOf {α : Type} [DecidableEq α] (x : α) : List α → Int
  | [] => -1
  | a :: as =>
      if a = x then 0
      else
        (fun r => if r = -1 then -1 else r + 1) (jsIndexOf x as)

/-- JS `String.prototype.lastIndexOf` for a single character: index of the
last occurrence, `-1` when absent. -/
def jsLastIndexOf {α : Type} [DecidableEq α] (x : α) : List α → Int
  | [] => -1
  | a :: as =>
      (fun r => if 0 ≤ r then r + 1 else if a = x then 0 else -1)
        (jsLastIndexOf x as)

/-! ## Manifest templater (webpack.config.cjs, `templateContent`) -/

/-- `filenameOf` from `templateContent`:
`(pathname) => pathname.substr(pathname.lastIndexOf('/') + 1)`.
When no `/` occurs, `lastIndexOf` is `-1`, `substr(0)` returns the whole
string. -/
def filenameOf (pathname : List Char) : List Char :=
  pathname.drop (jsLastIndexOf '/' pathname + 1).toNat

/-- The per-path JS mapping step of `templateContent`:
`f.substring(0, f.length - '.js'.length)` applied to `filenameOf pathname`.
JS `substring` clamps a negative end index to `0`, which truncated `Nat`
subtraction reproduces. -/
def jsChunkName (pathname : List Char) : List Char :=
  (fun f => f.take (f.length - ".js".length)) (filenameOf pathname)

/-- The per-path CSS mapping step of `templateContent`:
`f.substring(0, f.length - '.css'.length)` applied to `filenameOf pathname`. -/
def cssChunkName (pathname : List Char) : List Char :=
  (fun f => f.take (f.length - ".css".length)) (filenameOf pathname)

/-- The pair of chunk-name lists that `templateContent` serializes into the
PHP manifest: `'js' => ...` and `'css' => ...`. -/
structure Manifest where
  js : List (List Char)
  css : List (List Char)
deriving DecidableEq

/-- The list computation of `templateContent`: map each produced file path
to its bare chunk name, then `filter(omitPrimaryChunk)` where
`omitPrimaryChunk = (f) => f != chunkName` and `chunkName` is the entry
chunk name (`htmlWebpackPlugin.options.chunks[0]`). -/
def buildManifest (entryChunkName : List Char)
    (scriptFiles styleFiles : List (List Char)) : Manifest :=
  { js := (scriptFiles.map jsChunkName).filter (fun f => f != entryChunkName)
    css := (styleFiles.map cssChunkName).filter (fun f => f != entryChunkName) }

/-! ## Label renderer (formLabel.js, `FormLabel`) -/

/-- The subset of the design system's `PLACEMENT` constants relevant here. -/
inductive Placement where
  | top
  | bottom
  | bottomStart
  | bottomEnd
deriving DecidableEq

/-- The subset of `THEME_CONSTANTS.TYPOGRAPHY.PRESET_SIZES` relevant here. -/
inductive PresetSize where
  | xxSmall
  | xSmall
  | small
deriving DecidableEq

/-- Markup produced by `FormLabel`.  A `headline` node models the design
system's `Headline` rendered with `as`, `size` and `htmlFor` props and text
children; `withRequiredMarker = true` models `RequiredHeadline`, the
`styled(Headline)` variant whose `:after` rule appends the `*` glyph.  A
`tooltip` node models the editor's `Tooltip` wrapper with its `title` and
`placement` props. -/
inductive Markup where
  | headline (withRequiredMarker : Bool) (asTag : List Char)
      (size : PresetSize) (htmlFor : List Char) (children : List Char)
  | tooltip (title : List Char) (placement : Placement) (child : Markup)
deriving DecidableEq

/-- `FormLabel` from formLabel.js.  `tr` models the i18n function `__`
(applied to the msgid and the text domain); `requiredInputs` models the
externally owned `REQUIRED_INPUTS` list from `../constants`.  The branch
condition is the source's `REQUIRED_INPUTS.indexOf(htmlFor) > -1`. -/
def renderLabel (tr : List Char → List Char → List Char)
    (requiredInputs : List (List Char))
    (htmlFor copy : List Char) : Markup :=
  if jsIndexOf htmlFor requiredInputs > -1 then
    .tooltip (tr "Required".data "web-stories".data) .bottomStart
      (.headline true "label".data .xxSmall htmlFor copy)
  else
    .headline false "label".data .xxSmall htmlFor copy

/-- Whether the markup contains a node carrying the required-marker glyph
(i.e. a `RequiredHeadline`). -/
def containsMarker : Markup → Bool
  | .headline m _ _ _ _ => m
  | .tooltip _ _ c => containsMarker c

/-- Whether the markup contains a tooltip node. -/
def containsTooltip : Markup → Bool
  | .headline _ _ _ _ _ => false
  | .tooltip _ _ _ => true

/-- The title of the outermost tooltip, when one is present. -/
def tooltipTitle : Markup → Option (List Char)
  | .headline _ _ _ _ _ => none
  | .tooltip t _ _ => some t

/-- The placement of the outermost tooltip, when one is present. -/
def tooltipPlacement : Markup → Option Placement
  | .headline _ _ _ _ _ => none
  | .tooltip _ p _ => some p

/-- The `htmlFor` of the innermost headline node when it is rendered with
`as="label"` (the standard form-association mechanism). -/
def labelFor : Markup → Option (List Char)
  | .headline _ tag _ f _ => if tag = "label".data then some f else none
  | .tooltip _ _ c => labelFor c

/-- The typographic preset size of the innermost headline node. -/
def labelSize : Markup → Option PresetSize
  | .headline _ _ s _ _ => some s
  | .tooltip _ _ c => labelSize c

/-- The text children of the innermost headline node. -/
def labelText : Markup → Option (List Char)
  | .headline _ _ _ _ t => some t
  | .tooltip _ _ c => labelText c

/-- Whether the markup is (possibly behind a tooltip wrapper) a label
element, i.e. a headline rendered `as="label"`. -/
def isLabelElement (m : Markup) : Bool :=
  (labelFor m).isSome

end WebStories

namespace WebStories

/-! ## Helper lemmas about the JS index functions -/

theorem jsIndexOf_cons {α : Type} [DecidableEq α] (x a : α) (as : List α) :
    jsIndexOf x (a :: as) =
      if a = x then 0
      else if jsIndexOf x as = -1 then -1 else jsIndexOf x as + 1 := rfl

theorem jsLastIndexOf_cons {α : Type} [DecidableEq α] (x a : α) (as : List α) :
    jsLastIndexOf x (a :: as) =
      if 0 ≤ jsLastIndexOf x as then jsLastIndexOf x as + 1
      else if a = x then 0 else -1 := rfl

theorem jsIndexOf_eq_neg_one_or_nonneg {α : Type} [DecidableEq α]
    (x : α) (l : List α) : jsIndexOf x l = -1 ∨ 0 ≤ jsIndexOf x l := by
  induction l with
  | nil => left; rfl
  | cons a as ih =>
    rw [jsIndexOf_cons]
    by_cases hax : a = x
    · rw [if_pos hax]; right; omega
    · rw [if_neg hax]
      by_cases hr : jsIndexOf x as = -1
      · rw [if_pos hr]; left; rfl
      · rw [if_neg hr]
        rcases ih with h | h
        · exact absurd h hr
        · right; omega

theorem jsIndexOf_eq_neg_one_iff {α : Type} [DecidableEq α]
    (x : α) (l : List α) : jsIndexOf x l = -1 ↔ x ∉ l := by
  induction l with
  | nil => simp [jsIndexOf]
  | cons a as ih =>
    by_cases hax : a = x
    · subst hax
      rw [jsIndexOf_cons, if_pos rfl]
      constructor
      · intro h; exact absurd h (by omega)
      · intro hn; exact absurd (List.mem_cons_self a as) hn
    · rw [jsIndexOf_cons, if_neg hax]
      by_cases hr : jsIndexOf x as = -1
      · rw [if_pos hr]
        simp only [List.mem_cons, not_or]
        constructor
        · intro _; exact ⟨fun hxa => hax hxa.symm, ih.mp hr⟩
        · intro _; trivial
      · rw [if_neg hr]
        have hmem : x ∈ as := by
          by_contra hnm
          exact hr (ih.mpr hnm)
        constructor
        · intro h
          exfalso
          rcases jsIndexOf_eq_neg_one_or_nonneg x as with h2 | h2
          · exact hr h2
          · omega
        · intro hn
          exact absurd (List.mem_cons_of_mem a hmem) hn

theorem jsIndexOf_pos_iff_mem {α : Type} [DecidableEq α]
    (x : α) (l : List α) : jsIndexOf x l > -1 ↔ x ∈ l := by
  constructor
  · intro hgt
    by_contra hnm
    have h := (jsIndexOf_eq_neg_one_iff x l).mpr hnm
    omega
  · intro hm
    have hne : jsIndexOf x l ≠ -1 :=
      fun he => ((jsIndexOf_eq_neg_one_iff x l).mp he) hm
    rcases jsIndexOf_eq_neg_one_or_nonneg x l with h | h
    · exact absurd h hne
    · omega

theorem jsLastIndexOf_spec {α : Type} [DecidableEq α] (x : α) (l : List α) :
    (jsLastIndexOf x l = -1 ∧ x ∉ l) ∨
    ∃ n : Nat, jsLastIndexOf x l = (n : Int) ∧ l.get? n = some x ∧
      x ∉ l.drop (n + 1) := by
  induction l with
  | nil => left; exact ⟨rfl, by simp⟩
  | cons a as ih =>
    rcases ih with ⟨h1, h2⟩ | ⟨n, hn, hget, hdrop⟩
    · have hneg : ¬ (0 ≤ jsLastIndexOf x as) := by rw [h1]; omega
      by_cases hax : a = x
      · right
        refine ⟨0, ?_, ?_, ?_⟩
        · rw [jsLastIndexOf_cons, if_neg hneg, if_pos hax]; rfl
        · simp [hax]
        · simpa using h2
      · left
        refine ⟨?_, ?_⟩
        · rw [jsLastIndexOf_cons, if_neg hneg, if_neg hax]
        · simp only [List.mem_cons, not_or]
          exact ⟨fun h => hax h.symm, h2⟩
    · right
      have hpos : (0 : Int) ≤ jsLastIndexOf x as := by rw [hn]; omega
      refine ⟨n + 1, ?_, ?_, ?_⟩
      · rw [jsLastIndexOf_cons, if_pos hpos, hn]; push_cast; ring
      · simpa using hget
      · simpa using hdrop

/-! ## Helper lemmas about filenameOf -/

theorem filenameOf_eq_of_no_slash (p : List Char) (h : '/' ∉ p) :
    filenameOf p = p := by
  rcases jsLastIndexOf_spec '/' p with ⟨h1, _⟩ | ⟨n, hn, hget, _⟩
  · simp [filenameOf, h1]
  · exact absurd (List.get?_mem hget) h

theorem filenameOf_split (p : List Char) :
    ∃ pre, p = pre ++ filenameOf p ∧ '/' ∉ filenameOf p ∧
      (pre = [] ∨ ∃ q, pre = q ++ ['/']) := by
  rcases jsLastIndexOf_spec '/' p with ⟨h1, h2⟩ | ⟨n, hn, hget, hdrop⟩
  · have hfn : filenameOf p = p := by simp [filenameOf, h1]
    exact ⟨[], by rw [hfn]; rfl, by rw [hfn]; exact h2, Or.inl rfl⟩
  · have hfn : filenameOf p = p.drop (n + 1) := by
      have ht : (jsLastIndexOf '/' p + 1).toNat = n + 1 := by rw [hn]; omega
      simp [filenameOf, ht]
    refine ⟨p.take (n + 1), ?_, ?_, Or.inr ⟨p.take n, ?_⟩⟩
    · rw [hfn]; exact (List.take_append_drop (n + 1) p).symm
    · rw [hfn]; exact hdrop
    · rw [List.take_succ, ← List.get?_eq_getElem?, hget]; rfl

/-! ## Helper lemmas about renderLabel -/

theorem renderLabel_labelFor (tr : List Char → List Char → List Char)
    (req : List (List Char)) (f copy : List Char) :
    labelFor (renderLabel tr req f copy) = some f := by
  unfold renderLabel
  split <;> simp [labelFor]

theorem renderLabel_labelSize (tr : List Char → List Char → List Char)
    (req : List (List Char)) (f copy : List Char) :
    labelSize (renderLabel tr req f copy) = some PresetSize.xxSmall := by
  unfold renderLabel
  split <;> simp [labelSize]

theorem renderLabel_labelText (tr : List Char → List Char → List Char)
    (req : List (List Char)) (f copy : List Char) :
    labelText (renderLabel tr req f copy) = some copy := by
  unfold renderLabel
  split <;> simp [labelText]

theorem renderLabel_marker_iff (tr : List Char → List Char → List Char)
    (req : List (List Char)) (f copy : List Char) :
    containsMarker (renderLabel tr req f copy) = true ↔ f ∈ req := by
  rw [← jsIndexOf_pos_iff_mem]
  unfold renderLabel
  split <;> rename_i h <;> simp [containsMarker, h]

theorem renderLabel_tooltip_iff (tr : List Char → List Char → List Char)
    (req : List (List Char)) (f copy : List Char) :
    containsTooltip (renderLabel tr req f copy) = true ↔ f ∈ req := by
  rw [← jsIndexOf_pos_iff_mem]
  unfold renderLabel
  split <;> rename_i h <;> simp [containsTooltip, h]

end WebStories

namespace WebStories

/-! ## Claim theorems -/

/-- Claim C1: for every field identifier that is a member of the
required-fields set, `renderLabel` (`FormLabel`) returns markup that
includes the required-marker glyph and a tooltip whose text equals the
localized "Required" string (`__('Required', 'web-stories')`), with the
tooltip anchored `BOTTOM_START` relative to the label. -/
theorem c1_required_label_marker_and_tooltip
    (tr : List Char → List Char → List Char) (req : List (List Char))
    (f copy : List Char) (h : f ∈ req) :
    containsMarker (renderLabel tr req f copy) = true ∧
    containsTooltip (renderLabel tr req f copy) = true ∧
    tooltipTitle (renderLabel tr req f copy) =
      some (tr "Required".data "web-stories".data) ∧
    tooltipPlacement (renderLabel tr req f copy) = some Placement.bottomStart := by
  have hc : jsIndexOf f req > -1 := (jsIndexOf_pos_iff_mem f req).mpr h
  refine ⟨(renderLabel_marker_iff tr req f copy).mpr h,
          (renderLabel_tooltip_iff tr req f copy).mpr h, ?_, ?_⟩
  · unfold renderLabel
    rw [if_pos hc]
    rfl
  · unfold renderLabel
    rw [if_pos hc]
    rfl

theorem c1_witness :
    containsMarker (renderLabel (fun s _ => s) ["title".data] "title".data
      "Title".data) = true ∧
    containsTooltip (renderLabel (fun s _ => s) ["title".data] "title".data
      "Title".data) = true ∧
    tooltipTitle (renderLabel (fun s _ => s) ["title".data] "title".data
      "Title".data) = some "Required".data ∧
    tooltipPlacement (renderLabel (fun s _ => s) ["title".data] "title".data
      "Title".data) = some Placement.bottomStart :=
  c1_required_label_marker_and_tooltip (fun s _ => s) ["title".data]
    "title".data "Title".data (by decide)

/-- Claim C2: `buildManifest` (the list computation of `templateContent`)
discards every bare chunk name equal to `entryChunkName` from both derived
lists, and on the spec example returns `js = ["vendor"]`, `css = []`. -/
theorem c2_entry_chunk_excluded :
    (∀ (e : List Char) (s c : List (List Char)),
      e ∉ (buildManifest e s c).js ∧ e ∉ (buildManifest e s c).css) ∧
    buildManifest "main".data ["js/main.js".data, "js/vendor.js".data]
        ["css/main.css".data] =
      { js := ["vendor".data], css := [] } := by
  refine ⟨fun e s c => ⟨?_, ?_⟩, by decide⟩ <;>
  · intro hmem
    simp only [buildManifest, List.mem_filter] at hmem
    simpa using hmem.2

/-- Claim C3 records the spec's intended error behavior: a script path
without the `.js` extension should raise `MalformedInput`.  The code has no
error path: on the failing input `"chunk"` it silently truncates and
returns the manifest with `js = ["ch"]`. -/
theorem c3_code_truncates_silently :
    buildManifest "main".data ["chunk".data] [] =
      { js := ["ch".data], css := [] } := by decide

/-- Claim C4: `buildManifest` preserves the relative order of the surviving
names (the output lists are sublists of the mapped name lists — a stable
filter), and on the spec example returns `js = ["a","b","c"]` unchanged. -/
theorem c4_order_preserved :
    (∀ (e : List Char) (s c : List (List Char)),
      ((buildManifest e s c).js).Sublist (s.map jsChunkName) ∧
      ((buildManifest e s c).css).Sublist (c.map cssChunkName)) ∧
    buildManifest "x".data ["a.js".data, "b.js".data, "c.js".data] [] =
      { js := ["a".data, "b".data, "c".data], css := [] } :=
  ⟨fun _ s c => ⟨List.filter_sublist _, List.filter_sublist _⟩, by decide⟩

/-- Claim C5: for every field identifier not in the required-fields set,
`renderLabel` output contains neither the required-marker glyph nor the
tooltip. -/
theorem c5_not_required_no_marker_no_tooltip
    (tr : List Char → List Char → List Char) (req : List (List Char))
    (f copy : List Char) (h : f ∉ req) :
    containsMarker (renderLabel tr req f copy) = false ∧
    containsTooltip (renderLabel tr req f copy) = false := by
  constructor
  · rcases hb : containsMarker (renderLabel tr req f copy) with _ | _
    · rfl
    · exact absurd ((renderLabel_marker_iff tr req f copy).mp hb) h
  · rcases hb : containsTooltip (renderLabel tr req f copy) with _ | _
    · rfl
    · exact absurd ((renderLabel_tooltip_iff tr req f copy).mp hb) h

theorem c5_witness :
    containsMarker (renderLabel (fun s _ => s) ["title".data] "excerpt".data
      "Excerpt".data) = false ∧
    containsTooltip (renderLabel (fun s _ => s) ["title".data] "excerpt".data
      "Excerpt".data) = false :=
  c5_not_required_no_marker_no_tooltip (fun s _ => s) ["title".data]
    "excerpt".data "Excerpt".data (by decide)

/-- Claim C6: `filenameOf` uses only the substring after the final `/` as
the base filename: the result is a suffix of the input containing no `/`,
the dropped prefix is empty or ends in `/`, and when no `/` is present the
whole string is the base filename; on the spec example
`buildManifest "main" ["dir/sub/chunk-a.js"] []` yields `js = ["chunk-a"]`. -/
theorem c6_filename_last_segment :
    (∀ p : List Char,
      ('/' ∉ p → filenameOf p = p) ∧
      ∃ pre, p = pre ++ filenameOf p ∧ '/' ∉ filenameOf p ∧
        (pre = [] ∨ ∃ q, pre = q ++ ['/'])) ∧
    buildManifest "main".data ["dir/sub/chunk-a.js".data] [] =
      { js := ["chunk-a".data], css := [] } :=
  ⟨fun p => ⟨filenameOf_eq_of_no_slash p, filenameOf_split p⟩, by decide⟩

theorem c6_witness : filenameOf "abc".data = "abc".data :=
  (c6_filename_last_segment.1 "abc".data).1 (by decide)

/-- Claim C7: for every identifier and display text, regardless of required
status, `renderLabel` output is a label element associated with the given
identifier via `htmlFor`, with the same `XX_SMALL` typographic preset in
both branches, and with the display text as its children. -/
theorem c7_label_association_and_preset
    (tr : List Char → List Char → List Char) (req : List (List Char))
    (f copy : List Char) :
    isLabelElement (renderLabel tr req f copy) = true ∧
    labelFor (renderLabel tr req f copy) = some f ∧
    labelSize (renderLabel tr req f copy) = some PresetSize.xxSmall ∧
    labelText (renderLabel tr req f copy) = some copy := by
  refine ⟨?_, renderLabel_labelFor tr req f copy,
          renderLabel_labelSize tr req f copy,
          renderLabel_labelText tr req f copy⟩
  rw [isLabelElement, renderLabel_labelFor tr req f copy]
  rfl

/-- Claim C8: `renderLabel` and `buildManifest` are deterministic pure
functions of their inputs (the required-fields set taken as a parameter):
two invocations on equal inputs produce equal outputs.  Mutation-freedom is
expressed by the embedding itself: both are total functions on immutable
values. -/
theorem c8_pure_deterministic :
    (∀ (tr tr' : List Char → List Char → List Char)
       (req req' : List (List Char)) (f f' copy copy' : List Char),
      tr = tr' → req = req' → f = f' → copy = copy' →
      renderLabel tr req f copy = renderLabel tr' req' f' copy') ∧
    (∀ (e e' : List Char) (s s' c c' : List (List Char)),
      e = e' → s = s' → c = c' →
      buildManifest e s c = buildManifest e' s' c') := by
  constructor
  · intro tr tr' req req' f f' copy copy' h1 h2 h3 h4
    rw [h1, h2, h3, h4]
  · intro e e' s s' c c' h1 h2 h3
    rw [h1, h2, h3]

theorem c8_witness :
    renderLabel (fun s _ => s) ["title".data] "title".data "Title".data =
      renderLabel (fun s _ => s) ["title".data] "title".data "Title".data ∧
    buildManifest "main".data ["js/main.js".data] [] =
      buildManifest "main".data ["js/main.js".data] [] :=
  ⟨c8_pure_deterministic.1 (fun s _ => s) (fun s _ => s) ["title".data]
      ["title".data] "title".data "title".data "Title".data "Title".data
      rfl rfl rfl rfl,
   c8_pure_deterministic.2 "main".data "main".data ["js/main.js".data]
      ["js/main.js".data] [] [] rfl rfl rfl⟩

/-- Claim C9: the implementation removes exactly the last 3 characters of
the base filename for scripts (4 for styles) unconditionally: the derived
name is the prefix of the base filename of length `length - 3` (resp.
`- 4`), with no extension check; on the extension-less input `"chunk"` the
bare name is the silently truncated `"ch"`, and a basename shorter than the
extension yields the empty string — no error path exists. -/
theorem c9_unconditional_truncation :
    (∀ p : List Char,
      (jsChunkName p).length = (filenameOf p).length - 3 ∧
      List.IsPrefix (jsChunkName p) (filenameOf p) ∧
      (cssChunkName p).length = (filenameOf p).length - 4 ∧
      List.IsPrefix (cssChunkName p) (filenameOf p)) ∧
    buildManifest "main".data ["chunk".data] [] =
      { js := ["ch".data], css := [] } ∧
    buildManifest "main".data ["ab".data] [] =
      { js := [[]], css := [] } := by
  have h3 : ".js".length = 3 := rfl
  have h4 : ".css".length = 4 := rfl
  refine ⟨fun p => ⟨?_, ?_, ?_, ?_⟩, by decide, by decide⟩
  · simp only [jsChunkName, h3, List.length_take]
    omega
  · unfold jsChunkName
    exact List.take_prefix _ _
  · simp only [cssChunkName, h4, List.length_take]
    omega
  · unfold cssChunkName
    exact List.take_prefix _ _

/-- Claim C10: `FormLabel` performs no runtime validation of its
arguments: for every string arguments `htmlFor` and `copy`, including the
empty string, `renderLabel` returns a label element, decorated with the
required marker exactly when `htmlFor` is a member of the required-inputs
list; it is a total function, so no `InvalidArgument` or other error is
ever signalled. -/
theorem c10_no_argument_validation
    (tr : List Char → List Char → List Char) (req : List (List Char))
    (f copy : List Char) :
    isLabelElement (renderLabel tr req f copy) = true ∧
    (containsMarker (renderLabel tr req f copy) = true ↔ f ∈ req) := by
  refine ⟨?_, renderLabel_marker_iff tr req f copy⟩
  rw [isLabelElement, renderLabel_labelFor tr req f copy]
  rfl

end WebStories